import Mathlib

/-!
Shallow embedding of the feedback-ingestion and profile-aggregation pipeline
of `src/main.py` (a Streamlit teaching-assistant app).

The session state (`st.session_state`) is modelled as an explicit `Store`
value threaded through the operations.  Python dicts are modelled as
insertion-ordered association lists (`List (String × _)`): lookup returns the
first binding, assignment replaces the first binding in place, and inserting a
fresh key appends at the end — exactly the observable semantics of a Python
3.7+ dict.  An exception escaping to the outer `except Exception` handler of
`analyze_code` (which reports the error and returns `None`) is modelled as the
operation returning `false` for its success flag.
-/

/-! ### Grade extraction (src/main.py lines 161-169)

The `progress` append computes

    int(feedback_json["grade_estimate"].split("/")[0])
        if "/" in feedback_json["grade_estimate"] else
    int(re.search(r'\d+', feedback_json["grade_estimate"]).group())
        if re.search(r'\d+', feedback_json["grade_estimate"]) else 0

`pythonInt` models Python's `int(str)` on ASCII input: optional surrounding
whitespace, an optional sign, then a nonempty digit string in which single
underscores may separate digits.  `none` models the `ValueError` raised on any
other input. -/

/-- ASCII whitespace stripped by Python's `int`. -/
def pyWhitespace (c : Char) : Bool :=
  c = ' ' || c = '\t' || c = '\n' || c = '\r' || c = '\x0b' || c = '\x0c'

/-- Numeric value of an ASCII digit character. -/
def digitVal (c : Char) : Nat := c.toNat - '0'.toNat

/-- Continues a digit string after at least one digit has been read:
digits, with single underscores allowed between digits. -/
def parseDigitsRest (acc : Nat) : List Char → Option Nat
  | [] => some acc
  | c :: cs =>
      if c.isDigit then parseDigitsRest (acc * 10 + digitVal c) cs
      else if c = '_' then
        match cs with
        | [] => none
        | c2 :: cs2 =>
            if c2.isDigit then parseDigitsRest (acc * 10 + digitVal c2) cs2 else none
      else none

/-- A nonempty digit string (underscore-separated), or `none`. -/
def parseDigitsUS : List Char → Option Nat
  | [] => none
  | c :: cs => if c.isDigit then parseDigitsRest (digitVal c) cs else none

/-- Sign handling of Python's `int` after whitespace stripping. -/
def pythonIntCore : List Char → Option Int
  | [] => none
  | c :: cs =>
      if c = '+' then (parseDigitsUS cs).map Int.ofNat
      else if c = '-' then (parseDigitsUS cs).map (fun n => -(Int.ofNat n))
      else (parseDigitsUS (c :: cs)).map Int.ofNat

/-- Python's `int(s)` on an ASCII string, `none` for `ValueError`. -/
def pythonInt (l : List Char) : Option Int :=
  pythonIntCore (((l.dropWhile pyWhitespace).reverse.dropWhile pyWhitespace).reverse)

/-- `s.split("/")[0]`: the prefix of `s` before the first `'/'`
(the whole string if there is no slash). -/
def splitBeforeSlash : List Char → List Char
  | [] => []
  | c :: cs => if c = '/' then [] else c :: splitBeforeSlash cs

/-- `re.search(r'\d+', s)`: the first maximal run of digits in `s`,
or `none` when `s` has no digit. -/
def firstDigitRun : List Char → Option (List Char)
  | [] => none
  | c :: cs =>
      if c.isDigit then some (c :: cs.takeWhile Char.isDigit)
      else firstDigitRun cs

/-- The inline grade derivation of src/main.py lines 165-168.
`none` models the `ValueError` raised by `int` when the text contains a
slash but the prefix before the first slash is not an integer literal;
that exception aborts `analyze_code` via the outer `except Exception`. -/
def extractGrade (s : List Char) : Option Int :=
  if s.contains '/' then
    pythonInt (splitBeforeSlash s)
  else
    match firstDigitRun s with
    | some run => pythonInt run
    | none => some 0

/-- `extractGrade` on a `String`. -/
def extractGradeS (s : String) : Option Int := extractGrade s.data

/-! ### Data model (src/main.py session state) -/

/-- One entry of `feedback_json["logic_errors"]`. -/
structure LogicError where
  description : String
  affected_lines : List Int
  suggestion : String
deriving Repr, DecidableEq

/-- One entry of `feedback_json["conceptual_misunderstandings"]`. -/
structure Misunderstanding where
  concept : String
  description : String
  resources : List String
deriving Repr, DecidableEq

/-- The parsed model response (`feedback_json` after `json.loads`), restricted
to the fields the commit path reads; `timestamp`, `language` and `assignment`
are the keys lines 137-139 attach before the commit. -/
structure FeedbackJson where
  logic_errors : List LogicError
  conceptual_misunderstandings : List Misunderstanding
  positive_aspects : List String
  overall_feedback : String
  grade_estimate : String
  timestamp : String
  language : String
  assignment : String
deriving Repr, DecidableEq

/-- One entry of `profile["history"]` (lines 153-159). -/
structure HistoryEntry where
  timestamp : String
  assignment : String
  grade_estimate : String
  key_issues : List String
deriving Repr, DecidableEq

/-- One entry of `profile["progress"]` (lines 162-169). -/
structure ProgressEntry where
  timestamp : String
  assignment : String
  grade : Int
deriving Repr, DecidableEq, Inhabited

/-- A student profile (the dict created at lines 143-149 / 229-235). -/
structure StudentProfile where
  history : List HistoryEntry
  submissions : Nat
  common_issues : List (String × Nat)
  strengths : List (String × Nat)
  progress : List ProgressEntry
deriving Repr, DecidableEq

/-- One entry of `st.session_state.submissions[student_id]` (lines 175-181). -/
structure Submission where
  code : String
  language : String
  assignment : String
  feedback : FeedbackJson
  timestamp : String
deriving Repr, DecidableEq

/-- One entry of `st.session_state.feedback_history` (lines 184-189). -/
structure FeedbackEvent where
  student_id : String
  assignment : String
  timestamp : String
  grade_estimate : String
deriving Repr, DecidableEq

/-- The mutable session state the pipeline touches. -/
structure Store where
  student_profiles : List (String × StudentProfile)
  submissions : List (String × List Submission)
  feedback_history : List FeedbackEvent
deriving Repr, DecidableEq

/-- Lookup in a Python dict: first binding for the key. -/
def lookupA {α : Type} (k : String) : List (String × α) → Option α
  | [] => none
  | (k', v) :: rest => if k' = k then some v else lookupA k rest

/-- Assignment `d[k] = v` in a Python dict: replaces the first binding in
place, or appends a fresh binding at the end. -/
def setA {α : Type} (k : String) (v : α) : List (String × α) → List (String × α)
  | [] => [(k, v)]
  | (k', v') :: rest => if k' = k then (k, v) :: rest else (k', v') :: setA k v rest

/-- The empty session state set up by lines 21-28. -/
def emptyStore : Store := ⟨[], [], []⟩

/-- The fresh profile dict of lines 143-149 (and 229-235). -/
def freshProfile : StudentProfile :=
  { history := [], submissions := 0, common_issues := [], strengths := [], progress := [] }

/-- `key_issues` of a new history entry (lines 157-158): logic-error
descriptions followed by misunderstood-concept names. -/
def keyIssuesOf (fj : FeedbackJson) : List String :=
  fj.logic_errors.map (·.description) ++ fj.conceptual_misunderstandings.map (·.concept)

/-- Lines 142-149: the profiles dict after the create-if-absent check. -/
def ensuredProfiles (st : Store) (sid : String) : List (String × StudentProfile) :=
  match lookupA sid st.student_profiles with
  | none => setA sid freshProfile st.student_profiles
  | some _ => st.student_profiles

/-- Line 151: `profile = st.session_state.student_profiles[student_id]`,
read after the create-if-absent check (the `getD` default is never used:
the key is always present at this point). -/
def currentProfile (st : Store) (sid : String) : StudentProfile :=
  (lookupA sid (ensuredProfiles st sid)).getD freshProfile

/-- Lines 152-159: increment `submissions` and append the history entry. -/
def afterHistory (p : StudentProfile) (assignment timestamp : String)
    (fj : FeedbackJson) : StudentProfile :=
  { p with
    submissions := p.submissions + 1,
    history := p.history ++
      [{ timestamp := timestamp, assignment := assignment,
         grade_estimate := fj.grade_estimate, key_issues := keyIssuesOf fj }] }

/-- Lines 162-169: append the progress entry with the derived grade. -/
def afterProgress (p : StudentProfile) (assignment timestamp : String)
    (g : Int) : StudentProfile :=
  { p with progress := p.progress ++
      [{ timestamp := timestamp, assignment := assignment, grade := g }] }

/-- Lines 172-173: the archive dict after the create-if-absent check. -/
def ensuredArchive (st : Store) (sid : String) : List (String × List Submission) :=
  match lookupA sid st.submissions with
  | none => setA sid ([] : List Submission) st.submissions
  | some _ => st.submissions

/-- Lines 137-139: the `timestamp`, `language` and `assignment` keys the
pipeline attaches to the parsed response before the commit. -/
def withMeta (fj : FeedbackJson) (timestamp language assignment : String) : FeedbackJson :=
  { fj with timestamp := timestamp, language := language, assignment := assignment }

/-- The commit path of `analyze_code` after a successful `json.loads`
(src/main.py lines 136-191), in source order:
1. create the profile if absent (142-149);
2. increment `submissions` and append the history entry (152-159);
3. evaluate the grade and append the progress entry (162-169) — if the grade
   expression raises, the store is left exactly as after step 2 and the call
   returns `None` (success flag `false`);
4. append to the per-student submission archive (172-181);
5. append to the global feedback history (184-189) and return the feedback.
-/
def analyzeCommit (st : Store) (sid code language assignment timestamp : String)
    (fj : FeedbackJson) : Store × Bool :=
  let p1 := afterHistory (currentProfile st sid) assignment timestamp fj
  match extractGradeS fj.grade_estimate with
  | none => ({ st with student_profiles := setA sid p1 (ensuredProfiles st sid) }, false)
  | some g =>
      let archive0 := ensuredArchive st sid
      ({ student_profiles :=
           setA sid (afterProgress p1 assignment timestamp g) (ensuredProfiles st sid),
         submissions := setA sid
           (((lookupA sid archive0).getD []) ++
             [{ code := code, language := language, assignment := assignment,
                feedback := withMeta fj timestamp language assignment,
                timestamp := timestamp }]) archive0,
         feedback_history := st.feedback_history ++
           [{ student_id := sid, assignment := assignment, timestamp := timestamp,
              grade_estimate := fj.grade_estimate }] }, true)

/-- Outcome of the part of `analyze_code` that precedes the commit: missing
API key (lines 53-55), HTTP error status (196-198), a `requests` exception
(199-201), a `json.JSONDecodeError` (192-195), or a successfully parsed
response. -/
inductive ModelOutcome where
  | noApiKey
  | httpError
  | requestExn
  | malformedJson
  | parsed (fj : FeedbackJson)
deriving Repr, DecidableEq

/-- `analyze_code` (src/main.py lines 52-201) as a function of the store and
of the model-call outcome.  Every failure before `json.loads` succeeds
returns `None` without touching the store; a parsed response enters the
commit path. -/
def analyze_code (st : Store) (sid code language assignment timestamp : String) :
    ModelOutcome → Store × Bool
  | .parsed fj => analyzeCommit st sid code language assignment timestamp fj
  | _ => (st, false)

/-- Student registration: the "Add Student" handler (src/main.py lines
227-238) creates the fresh profile only when the id is absent, otherwise it
only shows a warning. -/
def ensure (st : Store) (sid : String) : Store :=
  match lookupA sid st.student_profiles with
  | some _ => st
  | none => { st with student_profiles := setA sid freshProfile st.student_profiles }

/-- One user-level operation on the session state. -/
inductive Op where
  | ensure (sid : String)
  | submit (sid code language assignment timestamp : String) (fj : FeedbackJson)
deriving Repr, DecidableEq

/-- Runs one operation, returning the new store and the success flag. -/
def runOp (st : Store) : Op → Store × Bool
  | .ensure sid => (ensure st sid, true)
  | .submit sid code language assignment timestamp fj =>
      analyzeCommit st sid code language assignment timestamp fj

/-- Runs a sequence of operations from left to right. -/
def runOps (st : Store) : List Op → Store
  | [] => st
  | op :: rest => runOps (runOp st op).1 rest

/-- An operation that cannot raise mid-commit: a registration, or a
submission whose grade text derives to an integer. -/
def opOk : Op → Bool
  | .ensure _ => true
  | .submit _ _ _ _ _ fj => (extractGradeS fj.grade_estimate).isSome

/-- All operations of the list are non-raising. -/
def opsOk (ops : List Op) : Bool := ops.all opOk

/-- The per-profile length invariant of the spec:
`len(history) == len(progress) == len(submissions_archive) == submissions`
(vacuously true for an id with no profile). -/
def profileConsistent (st : Store) (sid : String) : Bool :=
  match lookupA sid st.student_profiles with
  | none => true
  | some p =>
      decide (p.history.length = p.submissions) &&
      decide (p.progress.length = p.submissions) &&
      decide (((lookupA sid st.submissions).getD []).length = p.submissions)

/-! ### Aggregations read by the dashboards -/

/-- The improvement metric of `display_student_analytics` (src/main.py lines
419-423): shown only when the progress list has more than one entry, as
`progress[-1]["grade"] - progress[0]["grade"]`; `none` models the metric not
being computed. -/
def improvement (progress : List ProgressEntry) : Option Int :=
  if progress.length > 1 then
    some ((progress.getLastD default).grade - (progress.headD default).grade)
  else none

/-- `all_issues` of `display_student_analytics` (lines 441-443): the
concatenation of every history entry's `key_issues`, in order. -/
def allIssues (history : List HistoryEntry) : List String :=
  history.foldl (fun acc e => acc ++ e.key_issues) []

/-- One step of the counting loop of lines 446-451: bump the count of
`issue`, inserting a fresh binding at the end on first sight. -/
def bumpA (counts : List (String × Nat)) (issue : String) : List (String × Nat) :=
  match counts with
  | [] => [(issue, 1)]
  | (k, v) :: rest =>
      if k = issue then (k, v + 1) :: rest else (k, v) :: bumpA rest issue

/-- `issue_counts` (lines 446-451): occurrence counts of each distinct
issue string, bindings in first-seen order. -/
def issueCounts (history : List HistoryEntry) : List (String × Nat) :=
  (allIssues history).foldl bumpA []

/-- Inserts into a list sorted by count descending, before the first entry
whose count is ≤ the new entry's count (so equal counts keep their original
relative order). -/
def insertByCount (x : String × Nat) : List (String × Nat) → List (String × Nat)
  | [] => [x]
  | y :: ys => if y.2 ≤ x.2 then x :: y :: ys else y :: insertByCount x ys

/-- One admissible behaviour of `issue_df.sort_values("Count", ascending=False)`
(line 457) on the first-seen-ordered rows built from the counts dict: a
stable insertion sort by count descending.  This reproduces the output numpy
exhibits for small frames (its introsort falls back to a stable insertion
sort below its 16-element threshold), but pandas' default `kind='quicksort'`
is documented as unstable, so for larger frames the code only guarantees the
contract `pandasSortValuesDesc` below — the order among equal counts is not
specified. -/
def sortCountDesc : List (String × Nat) → List (String × Nat)
  | [] => []
  | x :: xs => insertByCount x (sortCountDesc xs)

/-- What `issue_df.sort_values("Count", ascending=False)` (line 457)
guarantees for any sort kind: a permutation of the rows, ordered by count
descending.  With the default `kind='quicksort'` (unstable), any such
permutation is an admissible result; the relative order of rows with equal
counts is implementation-defined. -/
def pandasSortValuesDesc (rows out : List (String × Nat)) : Prop :=
  out.Perm rows ∧ out.Pairwise (fun a b => b.2 ≤ a.2)

/-- The common-issues aggregation of lines 441-457: count, sort by count
descending, keep the first `top_n` rows, using `sortCountDesc` — i.e. the
small-frame (stable) behaviour of the sort.  The source instantiates
`top_n = 5` (`.head(5)`). -/
def issue_frequency (history : List HistoryEntry) (top_n : Nat) : List (String × Nat) :=
  (sortCountDesc (issueCounts history)).take top_n

/-- The chart of line 457 exactly: the top 5 issues. -/
def topIssuesDisplayed (history : List HistoryEntry) : List (String × Nat) :=
  issue_frequency history 5

/-- Number of occurrences of `s` in a list of strings (specification-side
count used to state the correctness of `issueCounts`). -/
def countOcc (s : String) : List String → Nat
  | [] => 0
  | c :: cs => (if c = s then 1 else 0) + countOcc s cs

/-! ### Store invariants used in the proofs -/

/-- Internal invariant of a reachable store: every registered profile has its
three sequences in step with its counter, and an unregistered id has no
archived submissions. -/
def StoreInv (st : Store) : Prop :=
  ∀ sid,
    (∀ p, lookupA sid st.student_profiles = some p →
        p.history.length = p.submissions ∧
        p.progress.length = p.submissions ∧
        ((lookupA sid st.submissions).getD []).length = p.submissions) ∧
    (lookupA sid st.student_profiles = none →
        (lookupA sid st.submissions).getD [] = [])

/-- Every registered profile has empty `common_issues` and `strengths`
mappings (nothing in the source ever writes to them). -/
def FieldsEmpty (st : Store) : Prop :=
  ∀ sid p, lookupA sid st.student_profiles = some p →
    p.common_issues = [] ∧ p.strengths = []

/-! ### Concrete values used by counterexamples and witnesses -/

/-- A parsed model response whose textual grade is `"85/100"`. -/
def exFeedback85 : FeedbackJson :=
  { logic_errors := [], conceptual_misunderstandings := [], positive_aspects := [],
    overall_feedback := "solid work", grade_estimate := "85/100",
    timestamp := "", language := "", assignment := "" }

/-- A parsed model response whose textual grade is `"N/A"`. -/
def exFeedbackNA : FeedbackJson := { exFeedback85 with grade_estimate := "N/A" }

/-- A parsed model response whose textual grade is `"150/100"`. -/
def exFeedback150 : FeedbackJson := { exFeedback85 with grade_estimate := "150/100" }

/-- A history whose `key_issues` lists are
`[["loops"], ["loops", "recursion"], ["recursion"]]`. -/
def exHistory : List HistoryEntry :=
  [ { timestamp := "t1", assignment := "A1", grade_estimate := "g1",
      key_issues := ["loops"] },
    { timestamp := "t2", assignment := "A2", grade_estimate := "g2",
      key_issues := ["loops", "recursion"] },
    { timestamp := "t3", assignment := "A3", grade_estimate := "g3",
      key_issues := ["recursion"] } ]

/-- Seventeen distinct issue strings. -/
def exIssues17 : List String :=
  ["i01", "i02", "i03", "i04", "i05", "i06", "i07", "i08", "i09",
   "i10", "i11", "i12", "i13", "i14", "i15", "i16", "i17"]

/-- A history of 17 submissions, each contributing one distinct issue, so all
17 counts tie at 1 — a frame larger than the 16-element range in which
numpy's quicksort degenerates to a stable insertion sort. -/
def exHistory17 : List HistoryEntry :=
  exIssues17.map (fun s =>
    { timestamp := s, assignment := "A", grade_estimate := "g", key_issues := [s] })

/-! ### Association-list lemmas -/

theorem lookupA_setA_self {α : Type} (k : String) (v : α) (l : List (String × α)) :
    lookupA k (setA k v l) = some v := by
  induction l with
  | nil => simp [setA, lookupA]
  | cons kv rest ih =>
      obtain ⟨k', v'⟩ := kv
      by_cases h : k' = k
      · simp [setA, h, lookupA]
      · simp [setA, h, lookupA, ih]

theorem lookupA_setA_ne {α : Type} {k k' : String} (hne : k' ≠ k) (v : α)
    (l : List (String × α)) : lookupA k (setA k' v l) = lookupA k l := by
  induction l with
  | nil => simp [setA, lookupA, hne]
  | cons kv rest ih =>
      obtain ⟨k'', v''⟩ := kv
      by_cases h : k'' = k'
      · subst h
        simp [setA, lookupA, hne, ih]
      · by_cases h2 : k'' = k
        · simp [setA, lookupA, h, h2, Ne.symm hne]
        · simp [setA, lookupA, h, h2, ih]

theorem lookupA_ensuredProfiles_self (st : Store) (sid : String) :
    lookupA sid (ensuredProfiles st sid) =
      some ((lookupA sid st.student_profiles).getD freshProfile) := by
  unfold ensuredProfiles
  cases h : lookupA sid st.student_profiles with
  | none => simp [lookupA_setA_self]
  | some p => simp [h]

theorem lookupA_ensuredProfiles_ne {st : Store} {sid t : String} (hne : sid ≠ t) :
    lookupA t (ensuredProfiles st sid) = lookupA t st.student_profiles := by
  unfold ensuredProfiles
  cases h : lookupA sid st.student_profiles with
  | none => simp [lookupA_setA_ne hne]
  | some p => rfl

theorem currentProfile_eq (st : Store) (sid : String) :
    currentProfile st sid = (lookupA sid st.student_profiles).getD freshProfile := by
  unfold currentProfile
  rw [lookupA_ensuredProfiles_self]
  rfl

theorem lookupA_ensuredArchive_self (st : Store) (sid : String) :
    lookupA sid (ensuredArchive st sid) =
      some ((lookupA sid st.submissions).getD []) := by
  unfold ensuredArchive
  cases h : lookupA sid st.submissions with
  | none => simp [lookupA_setA_self]
  | some s => simp [h]

theorem lookupA_ensuredArchive_ne {st : Store} {sid t : String} (hne : sid ≠ t) :
    lookupA t (ensuredArchive st sid) = lookupA t st.submissions := by
  unfold ensuredArchive
  cases h : lookupA sid st.submissions with
  | none => simp [lookupA_setA_ne hne]
  | some s => rfl

/-! ### Grade-extraction lemmas -/

theorem pyWhitespace_of_digit {c : Char} (h : c.isDigit = true) :
    pyWhitespace c = false := by
  have f : ∀ w : Char, w.isDigit = false → (c = w) = False := by
    intro w hw
    refine eq_false fun hc => ?_
    rw [hc, hw] at h
    cases h
  unfold pyWhitespace
  simp only [f ' ' (by decide), f '\t' (by decide), f '\n' (by decide),
    f '\r' (by decide), f '\x0b' (by decide), f '\x0c' (by decide)]
  rfl

theorem parseDigitsRest_all_digits (l : List Char) :
    ∀ acc, (∀ c ∈ l, c.isDigit = true) → ∃ n, parseDigitsRest acc l = some n := by
  induction l with
  | nil => intro acc _; exact ⟨acc, rfl⟩
  | cons c cs ih =>
      intro acc h
      have hc : c.isDigit = true := h c (List.mem_cons_self c cs)
      have hcs : ∀ x ∈ cs, x.isDigit = true := fun x hx => h x (List.mem_cons_of_mem c hx)
      unfold parseDigitsRest
      rw [hc]
      exact ih _ hcs

theorem parseDigitsUS_all_digits {c : Char} {cs : List Char}
    (hc : c.isDigit = true) (hcs : ∀ x ∈ cs, x.isDigit = true) :
    ∃ n, parseDigitsUS (c :: cs) = some n := by
  simp only [parseDigitsUS, hc, if_true]
  exact parseDigitsRest_all_digits cs _ hcs

theorem dropWhile_pyWhitespace_of_digit_head {c : Char} {cs : List Char}
    (hc : c.isDigit = true) :
    (c :: cs).dropWhile pyWhitespace = c :: cs := by
  simp [List.dropWhile_cons, pyWhitespace_of_digit hc]

theorem pythonInt_digit_run {c : Char} {cs : List Char}
    (hc : c.isDigit = true) (hcs : ∀ x ∈ cs, x.isDigit = true) :
    ∃ n : Nat, pythonInt (c :: cs) = some (Int.ofNat n) := by
  have hall : ∀ x ∈ c :: cs, x.isDigit = true := by
    intro x hx
    rcases List.mem_cons.mp hx with h | h
    · exact h ▸ hc
    · exact hcs x h
  have h1 : (c :: cs).dropWhile pyWhitespace = c :: cs :=
    dropWhile_pyWhitespace_of_digit_head hc
  have h2 : ((c :: cs).reverse.dropWhile pyWhitespace) = (c :: cs).reverse := by
    cases hrev : (c :: cs).reverse with
    | nil => simp
    | cons d ds =>
        have hd : d ∈ (c :: cs).reverse := by rw [hrev]; exact List.mem_cons_self d ds
        rw [List.mem_reverse] at hd
        simp [List.dropWhile_cons, pyWhitespace_of_digit (hall d hd)]
  unfold pythonInt
  rw [h1, h2, List.reverse_reverse]
  have hplus : (c = '+') = False := by
    refine eq_false fun hcp => ?_
    rw [hcp] at hc
    cases hc
  have hminus : (c = '-') = False := by
    refine eq_false fun hcm => ?_
    rw [hcm] at hc
    cases hc
  simp only [pythonIntCore, hplus, hminus, if_false]
  obtain ⟨n, hn⟩ := parseDigitsUS_all_digits hc hcs
  exact ⟨n, by rw [hn]; rfl⟩

theorem firstDigitRun_shape {s run : List Char} (h : firstDigitRun s = some run) :
    ∃ c cs, run = c :: cs ∧ c.isDigit = true ∧ ∀ x ∈ cs, x.isDigit = true := by
  induction s with
  | nil => cases h
  | cons c cs ih =>
      by_cases hc : c.isDigit = true
      · simp only [firstDigitRun, hc, if_true, Option.some.injEq] at h
        refine ⟨c, cs.takeWhile Char.isDigit, h.symm, hc, ?_⟩
        intro x hx
        exact List.mem_takeWhile_imp hx
      · simp only [firstDigitRun, hc, if_false] at h
        exact ih h

theorem extractGrade_noslash_total {s : List Char} (h : s.contains '/' = false) :
    ∃ g : Int, extractGrade s = some g ∧ 0 ≤ g := by
  unfold extractGrade
  rw [h]
  cases hrun : firstDigitRun s with
  | none => exact ⟨0, rfl, le_refl 0⟩
  | some run =>
      obtain ⟨c, cs, hshape, hc, hcs⟩ := firstDigitRun_shape hrun
      subst hshape
      obtain ⟨n, hn⟩ := pythonInt_digit_run hc hcs
      exact ⟨Int.ofNat n, hn, Int.ofNat_nonneg n⟩

/-! ### Commit shape lemmas -/

theorem analyzeCommit_fail_eq (st : Store) (sid code language assignment timestamp : String)
    (fj : FeedbackJson) (hg : extractGradeS fj.grade_estimate = none) :
    analyzeCommit st sid code language assignment timestamp fj =
      ({ student_profiles :=
           setA sid (afterHistory (currentProfile st sid) assignment timestamp fj)
             (ensuredProfiles st sid),
         submissions := st.submissions,
         feedback_history := st.feedback_history }, false) := by
  unfold analyzeCommit
  rw [hg]

theorem analyzeCommit_ok_eq (st : Store) (sid code language assignment timestamp : String)
    (fj : FeedbackJson) (g : Int) (hg : extractGradeS fj.grade_estimate = some g) :
    analyzeCommit st sid code language assignment timestamp fj =
      ({ student_profiles :=
           setA sid
             (afterProgress (afterHistory (currentProfile st sid) assignment timestamp fj)
               assignment timestamp g)
             (ensuredProfiles st sid),
         submissions := setA sid
           (((lookupA sid (ensuredArchive st sid)).getD []) ++
             [{ code := code, language := language, assignment := assignment,
                feedback := withMeta fj timestamp language assignment,
                timestamp := timestamp }]) (ensuredArchive st sid),
         feedback_history := st.feedback_history ++
           [{ student_id := sid, assignment := assignment, timestamp := timestamp,
              grade_estimate := fj.grade_estimate }] }, true) := by
  unfold analyzeCommit
  rw [hg]

theorem analyzeCommit_snd (st : Store) (sid code language assignment timestamp : String)
    (fj : FeedbackJson) :
    (analyzeCommit st sid code language assignment timestamp fj).2 =
      (extractGradeS fj.grade_estimate).isSome := by
  cases hg : extractGradeS fj.grade_estimate with
  | none => rw [analyzeCommit_fail_eq _ _ _ _ _ _ _ hg]; rfl
  | some g => rw [analyzeCommit_ok_eq _ _ _ _ _ _ _ _ hg]; rfl

theorem analyzeCommit_frame (st : Store) (sid code language assignment timestamp : String)
    (fj : FeedbackJson) {t : String} (hne : sid ≠ t) :
    lookupA t ((analyzeCommit st sid code language assignment timestamp fj).1).student_profiles
        = lookupA t st.student_profiles ∧
    lookupA t ((analyzeCommit st sid code language assignment timestamp fj).1).submissions
        = lookupA t st.submissions := by
  cases hg : extractGradeS fj.grade_estimate with
  | none =>
      rw [analyzeCommit_fail_eq _ _ _ _ _ _ _ hg]
      exact ⟨(lookupA_setA_ne hne _ _).trans (lookupA_ensuredProfiles_ne hne), rfl⟩
  | some g =>
      rw [analyzeCommit_ok_eq _ _ _ _ _ _ _ _ hg]
      exact ⟨(lookupA_setA_ne hne _ _).trans (lookupA_ensuredProfiles_ne hne),
             (lookupA_setA_ne hne _ _).trans (lookupA_ensuredArchive_ne hne)⟩

theorem analyzeCommit_ok_lookup (st : Store) (sid code language assignment timestamp : String)
    (fj : FeedbackJson) (g : Int) (hg : extractGradeS fj.grade_estimate = some g) :
    lookupA sid ((analyzeCommit st sid code language assignment timestamp fj).1).student_profiles
        = some (afterProgress
            (afterHistory ((lookupA sid st.student_profiles).getD freshProfile)
              assignment timestamp fj) assignment timestamp g) ∧
    lookupA sid ((analyzeCommit st sid code language assignment timestamp fj).1).submissions
        = some (((lookupA sid st.submissions).getD []) ++
            [{ code := code, language := language, assignment := assignment,
               feedback := withMeta fj timestamp language assignment,
               timestamp := timestamp }]) := by
  rw [analyzeCommit_ok_eq _ _ _ _ _ _ _ _ hg]
  constructor
  · rw [lookupA_setA_self, currentProfile_eq]
  · rw [lookupA_setA_self, lookupA_ensuredArchive_self]
    rfl

theorem analyzeCommit_fail_lookup (st : Store)
    (sid code language assignment timestamp : String)
    (fj : FeedbackJson) (hg : extractGradeS fj.grade_estimate = none) :
    lookupA sid ((analyzeCommit st sid code language assignment timestamp fj).1).student_profiles
        = some (afterHistory ((lookupA sid st.student_profiles).getD freshProfile)
            assignment timestamp fj) ∧
    ((analyzeCommit st sid code language assignment timestamp fj).1).submissions
        = st.submissions ∧
    ((analyzeCommit st sid code language assignment timestamp fj).1).feedback_history
        = st.feedback_history := by
  rw [analyzeCommit_fail_eq _ _ _ _ _ _ _ hg]
  refine ⟨?_, rfl, rfl⟩
  rw [lookupA_setA_self, currentProfile_eq]

/-! ### Invariant preservation -/

theorem storeInv_empty : StoreInv emptyStore := by
  intro sid
  constructor
  · intro p hp
    simp [emptyStore, lookupA] at hp
  · intro _
    rfl

theorem storeInv_ensure {st : Store} (h : StoreInv st) (sid : String) :
    StoreInv (ensure st sid) := by
  unfold ensure
  cases hp : lookupA sid st.student_profiles with
  | some q => exact h
  | none =>
      intro t
      by_cases ht : sid = t
      · subst ht
        constructor
        · intro p hp2
          rw [lookupA_setA_self] at hp2
          cases hp2
          have h2 := (h sid).2 hp
          simp [freshProfile, h2]
        · intro hnone
          rw [lookupA_setA_self] at hnone
          cases hnone
      · constructor
        · intro p hp2
          rw [lookupA_setA_ne ht] at hp2
          exact (h t).1 p hp2
        · intro hnone
          rw [lookupA_setA_ne ht] at hnone
          exact (h t).2 hnone

theorem length_getD_of_inv {st : Store} (h : StoreInv st) (sid : String) :
    (((lookupA sid st.student_profiles).getD freshProfile).history.length =
        ((lookupA sid st.student_profiles).getD freshProfile).submissions) ∧
    (((lookupA sid st.student_profiles).getD freshProfile).progress.length =
        ((lookupA sid st.student_profiles).getD freshProfile).submissions) ∧
    (((lookupA sid st.submissions).getD []).length =
        ((lookupA sid st.student_profiles).getD freshProfile).submissions) := by
  cases hp : lookupA sid st.student_profiles with
  | some q =>
      have := (h sid).1 q hp
      simpa using this
  | none =>
      have h2 := (h sid).2 hp
      simp [freshProfile, h2]

theorem storeInv_commit {st : Store} (h : StoreInv st)
    (sid code language assignment timestamp : String) (fj : FeedbackJson)
    (g : Int) (hg : extractGradeS fj.grade_estimate = some g) :
    StoreInv (analyzeCommit st sid code language assignment timestamp fj).1 := by
  intro t
  by_cases ht : sid = t
  · subst ht
    obtain ⟨hlp, hls⟩ := analyzeCommit_ok_lookup st sid code language assignment timestamp fj g hg
    constructor
    · intro p hp2
      rw [hlp] at hp2
      cases hp2
      obtain ⟨h1, h2, h3⟩ := length_getD_of_inv h sid
      rw [hls]
      unfold afterProgress afterHistory
      simp [h1, h2, h3]
    · intro hnone
      rw [hlp] at hnone
      cases hnone
  · obtain ⟨hfp, hfs⟩ := analyzeCommit_frame st sid code language assignment timestamp fj ht
    rw [hfp, hfs]
    exact h t

theorem storeInv_runOp {st : Store} (h : StoreInv st) {op : Op} (hok : opOk op = true) :
    StoreInv (runOp st op).1 := by
  cases op with
  | ensure sid => exact storeInv_ensure h sid
  | submit sid code language assignment timestamp fj =>
      simp only [opOk, Option.isSome_iff_exists] at hok
      obtain ⟨g, hg⟩ := hok
      exact storeInv_commit h sid code language assignment timestamp fj g hg

theorem storeInv_runOps {st : Store} (h : StoreInv st) :
    ∀ {ops : List Op}, opsOk ops = true → StoreInv (runOps st ops) := by
  intro ops
  induction ops generalizing st with
  | nil => intro _; exact h
  | cons op rest ih =>
      intro hok
      simp only [opsOk, List.all_cons, Bool.and_eq_true] at hok
      exact ih (storeInv_runOp h hok.1) hok.2

theorem profileConsistent_of_inv {st : Store} (h : StoreInv st) (sid : String) :
    profileConsistent st sid = true := by
  unfold profileConsistent
  cases hp : lookupA sid st.student_profiles with
  | none => rfl
  | some p =>
      obtain ⟨h1, h2, h3⟩ := (h sid).1 p hp
      simp [h1, h2, h3]

theorem fieldsEmpty_empty : FieldsEmpty emptyStore := by
  intro sid p hp
  simp [emptyStore, lookupA] at hp

theorem fieldsEmpty_ensure {st : Store} (h : FieldsEmpty st) (sid : String) :
    FieldsEmpty (ensure st sid) := by
  unfold ensure
  cases hp : lookupA sid st.student_profiles with
  | some q => exact h
  | none =>
      intro t p hp2
      by_cases ht : sid = t
      · subst ht
        rw [lookupA_setA_self] at hp2
        cases hp2
        exact ⟨rfl, rfl⟩
      · rw [lookupA_setA_ne ht] at hp2
        exact h t p hp2

theorem fieldsEmpty_commit {st : Store} (h : FieldsEmpty st)
    (sid code language assignment timestamp : String) (fj : FeedbackJson) :
    FieldsEmpty (analyzeCommit st sid code language assignment timestamp fj).1 := by
  have hbase : ((lookupA sid st.student_profiles).getD freshProfile).common_issues = [] ∧
      ((lookupA sid st.student_profiles).getD freshProfile).strengths = [] := by
    cases hp : lookupA sid st.student_profiles with
    | some q => simpa using h sid q hp
    | none => exact ⟨rfl, rfl⟩
  intro t p hp2
  by_cases ht : sid = t
  · subst ht
    cases hg : extractGradeS fj.grade_estimate with
    | none =>
        obtain ⟨hlp, _, _⟩ :=
          analyzeCommit_fail_lookup st sid code language assignment timestamp fj hg
        rw [hlp] at hp2
        cases hp2
        exact hbase
    | some g =>
        obtain ⟨hlp, _⟩ :=
          analyzeCommit_ok_lookup st sid code language assignment timestamp fj g hg
        rw [hlp] at hp2
        cases hp2
        exact hbase
  · obtain ⟨hfp, _⟩ := analyzeCommit_frame st sid code language assignment timestamp fj ht
    rw [hfp] at hp2
    exact h t p hp2

theorem fieldsEmpty_runOps {st : Store} (h : FieldsEmpty st) :
    ∀ ops : List Op, FieldsEmpty (runOps st ops) := by
  intro ops
  induction ops generalizing st with
  | nil => exact h
  | cons op rest ih =>
      cases op with
      | ensure sid => exact ih (fieldsEmpty_ensure h sid)
      | submit sid code language assignment timestamp fj =>
          exact ih (fieldsEmpty_commit h sid code language assignment timestamp fj)

/-! ### Issue-counting lemmas -/

theorem lookupA_bumpA_self (l : List (String × Nat)) (issue : String) :
    lookupA issue (bumpA l issue) = some (((lookupA issue l).getD 0) + 1) := by
  induction l with
  | nil => simp [bumpA, lookupA]
  | cons kv rest ih =>
      obtain ⟨k, v⟩ := kv
      by_cases h : k = issue
      · simp [bumpA, lookupA, h]
      · simp [bumpA, lookupA, h, ih]

theorem lookupA_bumpA_ne {s issue : String} (hne : s ≠ issue)
    (l : List (String × Nat)) : lookupA s (bumpA l issue) = lookupA s l := by
  induction l with
  | nil => simp [bumpA, lookupA, Ne.symm hne]
  | cons kv rest ih =>
      obtain ⟨k, v⟩ := kv
      by_cases h : k = issue
      · subst h
        simp [bumpA, lookupA, Ne.symm hne]
      · simp [bumpA, lookupA, h, ih]

theorem lookupA_foldl_bumpA (issues : List String) :
    ∀ (acc : List (String × Nat)) (s : String),
      lookupA s (issues.foldl bumpA acc) =
        match lookupA s acc with
        | some v => some (v + countOcc s issues)
        | none =>
            if countOcc s issues = 0 then none else some (countOcc s issues) := by
  induction issues with
  | nil =>
      intro acc s
      cases h : lookupA s acc <;> simp [countOcc, h]
  | cons c cs ih =>
      intro acc s
      by_cases hc : c = s
      · subst hc
        rw [List.foldl_cons, ih, lookupA_bumpA_self]
        cases h : lookupA c acc <;>
          simp [countOcc, h, Nat.add_comm, Nat.add_assoc, Nat.add_left_comm]
      · rw [List.foldl_cons, ih, lookupA_bumpA_ne (Ne.symm hc)]
        cases h : lookupA s acc <;> simp [countOcc, hc, h]

theorem issueCounts_correct (history : List HistoryEntry) (s : String) :
    lookupA s (issueCounts history) =
      if countOcc s (allIssues history) = 0 then none
      else some (countOcc s (allIssues history)) := by
  unfold issueCounts
  rw [lookupA_foldl_bumpA]
  rfl

/-! ### Sorting lemmas -/

theorem mem_insertByCount {z x : String × Nat} {l : List (String × Nat)} :
    z ∈ insertByCount x l ↔ z = x ∨ z ∈ l := by
  induction l with
  | nil => simp [insertByCount]
  | cons y ys ih =>
      by_cases h : y.2 ≤ x.2
      · simp [insertByCount, h]
      · simp only [insertByCount, h, if_false, List.mem_cons, ih]
        tauto

theorem pairwise_insertByCount {x : String × Nat} {l : List (String × Nat)}
    (h : l.Pairwise (fun a b => b.2 ≤ a.2)) :
    (insertByCount x l).Pairwise (fun a b => b.2 ≤ a.2) := by
  induction l with
  | nil => simp [insertByCount]
  | cons y ys ih =>
      rw [List.pairwise_cons] at h
      by_cases hxy : y.2 ≤ x.2
      · simp only [insertByCount, hxy, if_true]
        rw [List.pairwise_cons]
        refine ⟨?_, List.pairwise_cons.mpr h⟩
        intro z hz
        rcases List.mem_cons.mp hz with hzy | hz2
        · rw [hzy]; exact hxy
        · exact le_trans (h.1 z hz2) hxy
      · simp only [insertByCount, hxy, if_false]
        rw [List.pairwise_cons]
        refine ⟨?_, ih h.2⟩
        intro z hz
        rcases mem_insertByCount.mp hz with hzx | hz2
        · rw [hzx]; exact le_of_lt (Nat.lt_of_not_le hxy)
        · exact h.1 z hz2

theorem sortCountDesc_pairwise (l : List (String × Nat)) :
    (sortCountDesc l).Pairwise (fun a b => b.2 ≤ a.2) := by
  induction l with
  | nil => simp [sortCountDesc]
  | cons x xs ih =>
      simp only [sortCountDesc]
      exact pairwise_insertByCount ih

theorem insertByCount_perm (x : String × Nat) (l : List (String × Nat)) :
    (insertByCount x l).Perm (x :: l) := by
  induction l with
  | nil => exact List.Perm.refl _
  | cons y ys ih =>
      by_cases h : y.2 ≤ x.2
      · simp only [insertByCount, h, if_true]
        exact List.Perm.refl _
      · simp only [insertByCount, h, if_false]
        exact (List.Perm.cons y ih).trans (List.Perm.swap x y ys)

theorem sortCountDesc_perm (l : List (String × Nat)) :
    (sortCountDesc l).Perm l := by
  induction l with
  | nil => exact List.Perm.refl _
  | cons x xs ih =>
      simp only [sortCountDesc]
      exact (insertByCount_perm x (sortCountDesc xs)).trans (List.Perm.cons x ih)

/-! ### Ensure lemmas -/

theorem ensure_of_present {st : Store} {sid : String} {p : StudentProfile}
    (hp : lookupA sid st.student_profiles = some p) : ensure st sid = st := by
  unfold ensure
  rw [hp]

theorem ensure_lookup_absent {st : Store} {sid : String}
    (hp : lookupA sid st.student_profiles = none) :
    lookupA sid (ensure st sid).student_profiles = some freshProfile := by
  unfold ensure
  rw [hp]
  exact lookupA_setA_self sid freshProfile st.student_profiles

/-- A parsed model response whose textual grade is `"Grade: 72 out of 100"`. -/
def exFeedback72 : FeedbackJson :=
  { exFeedback85 with grade_estimate := "Grade: 72 out of 100" }

/-! ### Claim theorems -/

/-- C1 counterexample: the claimed extraction policy fails on the code.  The
code's slash branch fires on any string containing `'/'`, not only when an
integer stands immediately before the slash: `"N/A"` (the spec's own example,
which the claim says yields 0) raises a `ValueError` (modelled as `none`), and
`"Grade: 85/100"` (an integer immediately before the slash, so the claim says
85) raises as well because `int("Grade: 85")` fails. -/
theorem gradePolicy_counterexample :
    extractGradeS "N/A" = none ∧
    extractGradeS "N/A" ≠ some 0 ∧
    extractGradeS "Grade: 85/100" = none ∧
    extractGradeS "Grade: 85/100" ≠ some 85 := by
  exact ⟨rfl, by decide, rfl, by decide⟩

/-- C1 (amended): grade extraction follows the ordered policy of the code:
(a) if the string contains a slash, the result is Python `int()` of the
prefix before the first slash — an error (no integer at all) when that
prefix is not an integer literal; (b) otherwise the result is the value of
the first digit run anywhere in the string, and this case always succeeds
with a nonnegative integer; (c) otherwise the result is 0.  In particular
`"85/100"` gives 85, `"100/100"` gives 100, `"Grade: 72 out of 100"` gives
72, and `"N/A"` gives an error, not 0. -/
theorem gradePolicy_amended :
    (∀ s : String, s.data.contains '/' = true →
        extractGradeS s = pythonInt (splitBeforeSlash s.data)) ∧
    (∀ (s : String) (run : List Char), s.data.contains '/' = false →
        firstDigitRun s.data = some run →
        ∃ n : Nat, extractGradeS s = some (Int.ofNat n) ∧
          pythonInt run = some (Int.ofNat n)) ∧
    (∀ s : String, s.data.contains '/' = false → firstDigitRun s.data = none →
        extractGradeS s = some 0) ∧
    extractGradeS "85/100" = some 85 ∧
    extractGradeS "100/100" = some 100 ∧
    extractGradeS "Grade: 72 out of 100" = some 72 ∧
    extractGradeS "N/A" = none := by
  refine ⟨?_, ?_, ?_, by decide, by decide, by decide, rfl⟩
  · intro s h
    unfold extractGradeS extractGrade
    rw [h]
    rfl
  · intro s run h hrun
    obtain ⟨c, cs, hrc, hc, hcs⟩ := firstDigitRun_shape hrun
    subst hrc
    obtain ⟨n, hn⟩ := pythonInt_digit_run hc hcs
    refine ⟨n, ?_, hn⟩
    unfold extractGradeS extractGrade
    rw [h, hrun]
    exact hn
  · intro s h hrun
    unfold extractGradeS extractGrade
    rw [h, hrun]
    rfl

/-- C1 witness: the amended no-slash branch evaluated on the spec's example
`"Grade: 72 out of 100"`, whose first digit run is `['7', '2']`. -/
theorem gradePolicy_amended_witness :
    ∃ n : Nat, extractGradeS "Grade: 72 out of 100" = some (Int.ofNat n) ∧
      pythonInt ['7', '2'] = some (Int.ofNat n) :=
  gradePolicy_amended.2.1 "Grade: 72 out of 100" ['7', '2'] (by decide) (by decide)

/-- C2 counterexample: deriving the numeric grade is not total and can fail
the submission.  With the textual grade `"N/A"` the derivation raises
(`extractGradeS` is `none`) and `analyze_code` returns `None` (success flag
`false`) instead of committing a defaulted 0. -/
theorem gradeDerivation_counterexample :
    extractGradeS exFeedbackNA.grade_estimate = none ∧
    (analyzeCommit emptyStore "S1" "print(1)" "python" "A1" "t0" exFeedbackNA).2 = false := by
  exact ⟨rfl, rfl⟩

/-- C2 (amended): the grade derivation is total exactly on slash-free grade
texts: if the textual grade contains no `'/'`, the derivation always produces
an integer (defaulting to 0 when the text has no digit) and the commit
succeeds.  A grade text containing a slash fails (raising, and aborting the
submission) whenever the prefix before the first slash is not an integer
literal. -/
theorem gradeDerivation_amended :
    (∀ s : String, s.data.contains '/' = false → (extractGradeS s).isSome = true) ∧
    (∀ (st : Store) (sid code language assignment timestamp : String)
        (fj : FeedbackJson), fj.grade_estimate.data.contains '/' = false →
        (analyzeCommit st sid code language assignment timestamp fj).2 = true) := by
  have htot : ∀ s : String, s.data.contains '/' = false →
      (extractGradeS s).isSome = true := by
    intro s h
    obtain ⟨g, hg, _⟩ := extractGrade_noslash_total h
    unfold extractGradeS
    rw [hg]
    rfl
  refine ⟨htot, ?_⟩
  intro st sid code language assignment timestamp fj h
  rw [analyzeCommit_snd]
  exact htot fj.grade_estimate h

/-- C2 witness: a submission whose grade text is the slash-free
`"Grade: 72 out of 100"` commits successfully on the empty store. -/
theorem gradeDerivation_amended_witness :
    (analyzeCommit emptyStore "S1" "print(1)" "python" "A1" "t0" exFeedback72).2 = true :=
  gradeDerivation_amended.2 emptyStore "S1" "print(1)" "python" "A1" "t0" exFeedback72
    (by decide)

/-- C3 counterexample: commit is not all-or-nothing.  Submitting with grade
text `"N/A"` on the empty store fails, yet afterwards student `"S1"` has a
profile with `submissions = 1` and one history entry but an empty progress
list and no archived submission — an observable torn state. -/
theorem atomicity_counterexample :
    (analyzeCommit emptyStore "S1" "print(1)" "python" "A1" "t0" exFeedbackNA).2 = false ∧
    lookupA "S1"
        ((analyzeCommit emptyStore "S1" "print(1)" "python" "A1" "t0" exFeedbackNA).1).student_profiles
      = some { history := [{ timestamp := "t0", assignment := "A1",
                             grade_estimate := "N/A", key_issues := [] }],
               submissions := 1, common_issues := [], strengths := [],
               progress := [] } ∧
    lookupA "S1"
        ((analyzeCommit emptyStore "S1" "print(1)" "python" "A1" "t0" exFeedbackNA).1).submissions
      = none := by
  exact ⟨rfl, rfl, rfl⟩

/-- C3 (amended): every failure before the commit block (missing API key,
HTTP error, request exception, malformed JSON) leaves the store byte-for-byte
unchanged; but a grade-derivation failure occurs in the middle of the commit
and leaves a torn state: the submissions counter is incremented and the
history entry appended, while the progress list, the submission archive and
the global feedback history are untouched. -/
theorem atomicity_amended :
    (∀ (st : Store) (sid code language assignment timestamp : String)
        (o : ModelOutcome), (∀ fj, o ≠ ModelOutcome.parsed fj) →
        analyze_code st sid code language assignment timestamp o = (st, false)) ∧
    (∀ (st : Store) (sid code language assignment timestamp : String)
        (fj : FeedbackJson), extractGradeS fj.grade_estimate = none →
        (analyzeCommit st sid code language assignment timestamp fj).2 = false ∧
        lookupA sid
            ((analyzeCommit st sid code language assignment timestamp fj).1).student_profiles
          = some (afterHistory ((lookupA sid st.student_profiles).getD freshProfile)
              assignment timestamp fj) ∧
        ((analyzeCommit st sid code language assignment timestamp fj).1).submissions
          = st.submissions ∧
        ((analyzeCommit st sid code language assignment timestamp fj).1).feedback_history
          = st.feedback_history) := by
  constructor
  · intro st sid code language assignment timestamp o h
    cases o with
    | noApiKey => rfl
    | httpError => rfl
    | requestExn => rfl
    | malformedJson => rfl
    | parsed fj => exact absurd rfl (h fj)
  · intro st sid code language assignment timestamp fj hg
    obtain ⟨h1, h2, h3⟩ :=
      analyzeCommit_fail_lookup st sid code language assignment timestamp fj hg
    refine ⟨?_, h1, h2, h3⟩
    rw [analyzeCommit_snd, hg]
    rfl

/-- C3 witness: a malformed-JSON outcome on the empty store changes nothing,
and the `"N/A"` grade failure on the empty store leaves the torn state. -/
theorem atomicity_amended_witness :
    analyze_code emptyStore "S1" "print(1)" "python" "A1" "t0"
        ModelOutcome.malformedJson = (emptyStore, false) ∧
    ((analyzeCommit emptyStore "S1" "print(1)" "python" "A1" "t0" exFeedbackNA).1).submissions
      = emptyStore.submissions :=
  ⟨atomicity_amended.1 emptyStore "S1" "print(1)" "python" "A1" "t0"
      ModelOutcome.malformedJson (fun _fj h => nomatch h),
   (atomicity_amended.2 emptyStore "S1" "print(1)" "python" "A1" "t0" exFeedbackNA
      rfl).2.2.1⟩

/-- C4 counterexample: the length invariant does not survive every sequence
of submissions.  After submitting with grade text `"N/A"` on the empty
store, student `"S1"` has `submissions = 1` but zero progress entries and
zero archived submissions, so
`len(history) = len(progress) = len(submissions_archive) = submissions`
fails. -/
theorem lengthInvariant_counterexample :
    profileConsistent
        (runOps emptyStore [Op.submit "S1" "print(1)" "python" "A1" "t0" exFeedbackNA])
        "S1" = false := by
  rfl

/-- C4 (amended): for every sequence of registrations and submissions in
which every submission's grade derivation succeeds, every profile satisfies
`len(history) = len(progress) = len(submissions_archive) = submissions`
after the whole sequence (hence after every successful commit); a submission
whose grade derivation raises (such as `"N/A"`) breaks the equalities
permanently. -/
theorem lengthInvariant_amended (ops : List Op) (hok : opsOk ops = true)
    (sid : String) : profileConsistent (runOps emptyStore ops) sid = true :=
  profileConsistent_of_inv (storeInv_runOps storeInv_empty hok) sid

/-- C4 witness: a registration followed by two successful submissions keeps
the profile of `"S1"` consistent. -/
theorem lengthInvariant_amended_witness :
    profileConsistent
        (runOps emptyStore
          [Op.ensure "S1",
           Op.submit "S1" "print(1)" "python" "A1" "t0" exFeedback85,
           Op.submit "S1" "print(2)" "python" "A2" "t1" exFeedback85])
        "S1" = true :=
  lengthInvariant_amended
    [Op.ensure "S1",
     Op.submit "S1" "print(1)" "python" "A1" "t0" exFeedback85,
     Op.submit "S1" "print(2)" "python" "A2" "t1" exFeedback85]
    (by decide) "S1"

/-- C5 counterexample: committed numeric grades are not confined to [0,100].
A model response with textual grade `"150/100"` commits successfully and
stores the progress grade 150, which exceeds 100. -/
theorem gradeRange_counterexample :
    (analyzeCommit emptyStore "S1" "print(1)" "python" "A1" "t0" exFeedback150).2 = true ∧
    (lookupA "S1"
        ((analyzeCommit emptyStore "S1" "print(1)" "python" "A1" "t0" exFeedback150).1).student_profiles).map
        (fun p => p.progress.map (fun e => e.grade))
      = some [150] ∧
    ¬ ((150 : Int) ≤ 100) := by
  exact ⟨rfl, rfl, by decide⟩

/-- C5 (amended): the committed numeric grade is exactly the integer the
extraction produces, with no clamping to [0,100]: a successful commit appends
a progress entry carrying precisely the extracted grade; grades obtained from
slash-free texts are always nonnegative (but unbounded above), and slash
texts can produce any integer — `"150/100"` extracts 150. -/
theorem gradeRange_amended :
    (∀ (st : Store) (sid code language assignment timestamp : String)
        (fj : FeedbackJson) (g : Int),
        extractGradeS fj.grade_estimate = some g →
        lookupA sid
            ((analyzeCommit st sid code language assignment timestamp fj).1).student_profiles
          = some (afterProgress
              (afterHistory ((lookupA sid st.student_profiles).getD freshProfile)
                assignment timestamp fj) assignment timestamp g)) ∧
    (∀ (s : String) (g : Int), s.data.contains '/' = false →
        extractGradeS s = some g → 0 ≤ g) ∧
    extractGradeS "150/100" = some 150 := by
  refine ⟨?_, ?_, by decide⟩
  · intro st sid code language assignment timestamp fj g hg
    exact (analyzeCommit_ok_lookup st sid code language assignment timestamp fj g hg).1
  · intro s g h hg
    obtain ⟨g2, hg2, hge⟩ := extractGrade_noslash_total h
    unfold extractGradeS at hg
    rw [hg2] at hg
    cases hg
    exact hge

/-- C5 witness: the nonnegativity part evaluated at the slash-free text
`"Grade: 72 out of 100"`, whose extracted grade is 72. -/
theorem gradeRange_amended_witness : (0 : Int) ≤ 72 :=
  gradeRange_amended.2.1 "Grade: 72 out of 100" 72 (by decide) (by decide)

/-- C6 counterexample: submitting for a student id never registered does not
fail.  On the empty store (no students registered), a commit for `"S9"`
succeeds and creates a profile for `"S9"` on the fly. -/
theorem unknownStudent_counterexample :
    lookupA "S9" emptyStore.student_profiles = none ∧
    (analyzeCommit emptyStore "S9" "print(1)" "python" "A1" "t0" exFeedback85).2 = true ∧
    (lookupA "S9"
        ((analyzeCommit emptyStore "S9" "print(1)" "python" "A1" "t0" exFeedback85).1).student_profiles).isSome
      = true := by
  exact ⟨rfl, rfl, rfl⟩

/-- C6 (amended): there is no `UnknownStudent` failure.  Submitting for an
unregistered student id silently creates the same fresh profile that
registration would create and commits into it: when the grade derivation
succeeds, the call returns the feedback and the new profile holds exactly
one history entry, one progress entry and `submissions = 1`. -/
theorem unknownStudent_amended (st : Store)
    (sid code language assignment timestamp : String) (fj : FeedbackJson) (g : Int)
    (habsent : lookupA sid st.student_profiles = none)
    (hg : extractGradeS fj.grade_estimate = some g) :
    (analyzeCommit st sid code language assignment timestamp fj).2 = true ∧
    lookupA sid
        ((analyzeCommit st sid code language assignment timestamp fj).1).student_profiles
      = some (afterProgress (afterHistory freshProfile assignment timestamp fj)
          assignment timestamp g) := by
  constructor
  · rw [analyzeCommit_snd, hg]
    rfl
  · have h :=
      (analyzeCommit_ok_lookup st sid code language assignment timestamp fj g hg).1
    rw [habsent] at h
    exact h

/-- C6 witness: the amended behaviour at the empty store for `"S1"` and the
grade text `"85/100"`. -/
theorem unknownStudent_amended_witness :
    (analyzeCommit emptyStore "S1" "print(1)" "python" "A1" "t0" exFeedback85).2 = true ∧
    lookupA "S1"
        ((analyzeCommit emptyStore "S1" "print(1)" "python" "A1" "t0" exFeedback85).1).student_profiles
      = some (afterProgress (afterHistory freshProfile "A1" "t0" exFeedback85)
          "A1" "t0" 85) :=
  unknownStudent_amended emptyStore "S1" "print(1)" "python" "A1" "t0" exFeedback85 85
    rfl (by decide)

/-- C7 counterexample: the claimed universal first-seen tie-break is not a
property of the code.  `sort_values` is invoked with pandas' default
`kind='quicksort'`, which pandas documents as unstable (numpy's introsort
only degenerates to a stable insertion sort for arrays of at most 16
elements), so all the code guarantees of the sorted frame is a
count-descending permutation of the rows.  For a history of 17 submissions
with 17 distinct single-occurrence issues (`exHistory17`), the fully reversed
row order is such an admissible result of the sort, and its first five rows
differ from the first-seen order the claim prescribes already at the first
entry. -/
theorem issueFrequency_counterexample :
    pandasSortValuesDesc (issueCounts exHistory17) (issueCounts exHistory17).reverse ∧
    (issueCounts exHistory17).reverse.take 5 ≠ (issueCounts exHistory17).take 5 := by
  refine ⟨⟨List.reverse_perm _, by decide⟩, by decide⟩

/-- C7 (amended): the common-issues aggregation counts the occurrences of
each distinct string across all `key_issues` lists of the history (counts
proved correct, count table in first-seen order), orders the rows by count
descending, and keeps the first `top_n` rows (`top_n = 5` in the source).
The relative order of rows with equal counts is not specified by the code
(pandas' default quicksort is unstable): any count-descending permutation of
the rows is admissible, every admissible result holds exactly the same rows,
and the embedded `sortCountDesc` is one admissible result — the one numpy
exhibits for frames within its 16-element insertion-sort range, under which
the example `[["loops"], ["loops", "recursion"], ["recursion"]]` yields
`loops:2` then `recursion:2`, `loops` first. -/
theorem issueFrequency_amended :
    (∀ (history : List HistoryEntry) (s : String),
        lookupA s (issueCounts history) =
          if countOcc s (allIssues history) = 0 then none
          else some (countOcc s (allIssues history))) ∧
    (∀ (history : List HistoryEntry) (out : List (String × Nat)),
        pandasSortValuesDesc (issueCounts history) out →
        out.length = (issueCounts history).length ∧
        (∀ x : String × Nat, x ∈ out ↔ x ∈ issueCounts history)) ∧
    (∀ history : List HistoryEntry,
        pandasSortValuesDesc (issueCounts history) (sortCountDesc (issueCounts history))) ∧
    (∀ (history : List HistoryEntry) (top_n : Nat),
        (issue_frequency history top_n).Pairwise (fun a b => b.2 ≤ a.2) ∧
        (issue_frequency history top_n).length ≤ top_n) ∧
    issue_frequency exHistory 5 = [("loops", 2), ("recursion", 2)] ∧
    topIssuesDisplayed exHistory = [("loops", 2), ("recursion", 2)] := by
  refine ⟨issueCounts_correct, ?_, ?_, ?_, by decide, by decide⟩
  · intro history out h
    exact ⟨h.1.length_eq, fun x => h.1.mem_iff⟩
  · intro history
    exact ⟨sortCountDesc_perm _, sortCountDesc_pairwise _⟩
  · intro history top_n
    constructor
    · exact List.Pairwise.sublist (List.take_sublist top_n (sortCountDesc (issueCounts history)))
        (sortCountDesc_pairwise (issueCounts history))
    · have h : (issue_frequency history top_n).length
          = min top_n (sortCountDesc (issueCounts history)).length :=
        List.length_take top_n (sortCountDesc (issueCounts history))
      rw [h]
      exact min_le_left _ _

/-- C7 witness: the same-rows conclusion applied to a concrete admissible
result of the sort — the reversed tie order on the loops/recursion example —
with the `pandasSortValuesDesc` hypothesis discharged explicitly. -/
theorem issueFrequency_amended_witness :
    [("recursion", 2), ("loops", 2)].length = (issueCounts exHistory).length ∧
    (∀ x : String × Nat,
        x ∈ [("recursion", 2), ("loops", 2)] ↔ x ∈ issueCounts exHistory) :=
  issueFrequency_amended.2.1 exHistory [("recursion", 2), ("loops", 2)]
    ⟨List.Perm.swap ("loops", 2) ("recursion", 2) [], by decide⟩

/-- C8: the improvement metric equals the last progress grade minus the first
when the progress list has at least 2 entries (`[70, 85]` gives 15), and is
not computed (`none`) when the list has fewer than 2 entries. -/
theorem improvement_spec :
    (∀ l : List ProgressEntry, l.length < 2 → improvement l = none) ∧
    (∀ (l : List ProgressEntry) (a b : ProgressEntry),
        l.head? = some a → l.getLast? = some b → 2 ≤ l.length →
        improvement l = some (b.grade - a.grade)) ∧
    improvement [{ timestamp := "t1", assignment := "A1", grade := 70 },
                 { timestamp := "t2", assignment := "A2", grade := 85 }] = some 15 ∧
    improvement [{ timestamp := "t1", assignment := "A1", grade := 70 }] = none := by
  refine ⟨?_, ?_, by decide, rfl⟩
  · intro l hl
    unfold improvement
    rw [if_neg (by omega)]
  · intro l a b ha hb hl
    unfold improvement
    rw [if_pos (by omega), List.getLastD_eq_getLast?, List.headD_eq_head?, ha, hb]
    rfl

/-- C8 witness: the two-entry case evaluated on progress grades 70 then 85. -/
theorem improvement_spec_witness :
    improvement [{ timestamp := "t1", assignment := "A1", grade := 70 },
                 { timestamp := "t2", assignment := "A2", grade := 85 }]
      = some ((85 : Int) - 70) :=
  improvement_spec.2.1
    [{ timestamp := "t1", assignment := "A1", grade := 70 },
     { timestamp := "t2", assignment := "A2", grade := 85 }]
    { timestamp := "t1", assignment := "A1", grade := 70 }
    { timestamp := "t2", assignment := "A2", grade := 85 }
    rfl rfl (by decide)

/-- C9: registration is idempotent and never overwrites: registering an id
twice equals registering it once; registering an already-present id leaves
the whole store unchanged; and a first registration creates the fresh profile
(all sequences empty, `submissions = 0`) without touching the archive or the
feedback history. -/
theorem ensure_spec (st : Store) (sid : String) :
    ensure (ensure st sid) sid = ensure st sid ∧
    (∀ p, lookupA sid st.student_profiles = some p → ensure st sid = st) ∧
    (lookupA sid st.student_profiles = none →
        lookupA sid (ensure st sid).student_profiles = some freshProfile ∧
        (ensure st sid).submissions = st.submissions ∧
        (ensure st sid).feedback_history = st.feedback_history) := by
  refine ⟨?_, fun p hp => ensure_of_present hp, ?_⟩
  · cases hp : lookupA sid st.student_profiles with
    | some p => rw [ensure_of_present hp, ensure_of_present hp]
    | none => exact ensure_of_present (ensure_lookup_absent hp)
  · intro hp
    refine ⟨ensure_lookup_absent hp, ?_, ?_⟩ <;>
      · unfold ensure
        rw [hp]

/-- C9 witness: registering `"S1"` on the empty store creates the fresh
profile, and registering again changes nothing. -/
theorem ensure_spec_witness :
    ensure (ensure emptyStore "S1") "S1" = ensure emptyStore "S1" ∧
    lookupA "S1" (ensure emptyStore "S1").student_profiles = some freshProfile :=
  ⟨(ensure_spec emptyStore "S1").1, ((ensure_spec emptyStore "S1").2.2 rfl).1⟩

/-- C10: a successful commit for student `sid` leaves the profile entry and
the archive entry of every other student unchanged (the global feedback log
is the only cross-student state it appends to), and after any sequence of
operations from the empty store every profile still has empty
`common_issues` and `strengths` mappings — nothing ever writes to them. -/
theorem commit_frame_spec :
    (∀ (st : Store) (sid code language assignment timestamp : String)
        (fj : FeedbackJson) (t : String),
        (analyzeCommit st sid code language assignment timestamp fj).2 = true →
        t ≠ sid →
        lookupA t
            ((analyzeCommit st sid code language assignment timestamp fj).1).student_profiles
          = lookupA t st.student_profiles ∧
        lookupA t
            ((analyzeCommit st sid code language assignment timestamp fj).1).submissions
          = lookupA t st.submissions) ∧
    (∀ (ops : List Op) (sid : String) (p : StudentProfile),
        lookupA sid (runOps emptyStore ops).student_profiles = some p →
        p.common_issues = [] ∧ p.strengths = []) := by
  constructor
  · intro st sid code language assignment timestamp fj t _ ht
    exact analyzeCommit_frame st sid code language assignment timestamp fj (Ne.symm ht)
  · intro ops sid p hp
    exact fieldsEmpty_runOps fieldsEmpty_empty ops sid p hp

/-- C10 witness: a successful commit for `"S1"` on the empty store leaves the
(nonexistent) entries of `"S2"` unchanged. -/
theorem commit_frame_spec_witness :
    lookupA "S2"
        ((analyzeCommit emptyStore "S1" "print(1)" "python" "A1" "t0" exFeedback85).1).student_profiles
      = lookupA "S2" emptyStore.student_profiles ∧
    lookupA "S2"
        ((analyzeCommit emptyStore "S1" "print(1)" "python" "A1" "t0" exFeedback85).1).submissions
      = lookupA "S2" emptyStore.submissions :=
  commit_frame_spec.1 emptyStore "S1" "print(1)" "python" "A1" "t0" exFeedback85 "S2"
    (by decide) (by decide)
